import Mathlib

/-!
Verification development for the SHEGA home-environmental-safety telemetry
backend.  The definitions below are a shallow embedding of the JavaScript
source (`services/mqttService.js`, `services/deviceControlService.js`,
`sockets/index.js`): JavaScript values are modelled by the inductive
`JSVal`, finite JS numbers by `ℚ` (comparisons of finite doubles agree with
the rational order of their exact values), stateful module-level bindings
(the MQTT client, the Socket.IO server handle) become explicit parameters,
and each asynchronous external collaborator (device registry, telemetry
store) becomes an outcome parameter.  The message handler is modelled as a
pure function from an inbound message to the ordered list of side effects
it performs.
-/

namespace Shega

/-- A JavaScript runtime value, restricted to the shapes this pipeline can
observe.  Finite numbers carry their exact value as a rational; `nan` and
`inf` are the non-finite numbers (`typeof` number, not finite). -/
inductive JSVal where
  | undef : JSVal
  | null : JSVal
  | bool : Bool → JSVal
  | num : ℚ → JSVal
  | nan : JSVal
  | inf : Bool → JSVal
  | str : String → JSVal
  deriving DecidableEq, Repr

/-- JavaScript truthiness: `undefined`, `null`, `false`, `0`, `NaN` and the
empty string are falsy; everything else (including `Infinity`) is truthy. -/
def truthy : JSVal → Bool
  | .undef => false
  | .null => false
  | .bool b => b
  | .num x => x != 0
  | .nan => false
  | .inf _ => true
  | .str s => s != ""

/-- JavaScript `a || b`: the first operand if truthy, else the second. -/
def jsOr (a b : JSVal) : JSVal := if truthy a then a else b

/-- JavaScript `String(v)` for the values above.  Integral numbers print as
in JS; non-integral rationals print in Lean's fraction notation, a
divergence that no property below inspects (only emptiness and the
uppercase image of explicit string fields matter downstream). -/
def jsToString : JSVal → String
  | .undef => "undefined"
  | .null => "null"
  | .bool b => if b then "true" else "false"
  | .num x => if x.den = 1 then toString x.num else toString x
  | .nan => "NaN"
  | .inf p => if p then "Infinity" else "-Infinity"
  | .str s => s

/-- Per-character uppercase of a string, modelling
`String.prototype.toUpperCase()` on the ASCII identifiers this system
uses. -/
def jsUpper (s : String) : String := ⟨s.data.map Char.toUpper⟩

/-- Per-character lowercase, modelling `String.prototype.toLowerCase()`. -/
def jsLower (s : String) : String := ⟨s.data.map Char.toLower⟩

/-- `isFiniteNumber(v)` from mqttService.js:
`typeof v === 'number' && Number.isFinite(v)`. -/
def isFiniteNumber : JSVal → Bool
  | .num _ => true
  | _ => false

/-- `pickNumber(...candidates)` from mqttService.js: the first candidate
that is a finite number (returned via `Number(v)`, the identity on a
number), else `undefined`. -/
def pickNumber : List JSVal → Option ℚ
  | [] => none
  | v :: rest =>
    match v with
    | .num x => some x
    | _ => pickNumber rest

/-- Substring test on character lists: does the needle occur inside the
haystack?  Models `String.prototype.includes` for a fixed pattern. -/
def containsSub : List Char → List Char → Bool
  | [], needle => decide (needle = [])
  | c :: rest, needle => needle.isPrefixOf (c :: rest) || containsSub rest needle

/-- `s.includes(pat)` on strings. -/
def strContains (s pat : String) : Bool := containsSub s.data pat.data

/-- Does the 7-character pattern `HOME_` + two decimal digits sit at the
head of the character list?  If so, return it (the text matched by the
regex `/HOME_\d{2}/` at this position). -/
def homeCodeAt : List Char → Option String
  | a :: b :: c :: d :: e :: d1 :: d2 :: _ =>
    if a = 'H' ∧ b = 'O' ∧ c = 'M' ∧ d = 'E' ∧ e = '_' ∧ d1.isDigit ∧ d2.isDigit then
      some ⟨[a, b, c, d, e, d1, d2]⟩
    else none
  | _ => none

/-- Leftmost match of `/HOME_\d{2}/` in a character list, as
`String.prototype.match` returns it (`m[0]`), or `none`. -/
def findHomeCode : List Char → Option String
  | [] => none
  | c :: rest =>
    match homeCodeAt (c :: rest) with
    | some m => some m
    | none => findHomeCode rest

/-- `extractHomeFromDevice(deviceId)` from mqttService.js: `undefined` for
a falsy deviceId, else the first `/HOME_\d{2}/` match in
`String(deviceId)`, else `undefined`. -/
def extractHomeFromDevice (deviceId : JSVal) : JSVal :=
  if truthy deviceId then
    match findHomeCode (jsToString deviceId).data with
    | some m => .str m
    | none => .undef
  else (.undef)

/-- The flat measurement/alias fields the normalizer reads from either the
nested `payload` object or the top level of a raw message.  Absent fields
are `undefined`. -/
structure Fields where
  co2 : JSVal := .undef
  co2_ppm : JSVal := .undef
  co : JSVal := .undef
  co_ppm : JSVal := .undef
  pm25 : JSVal := .undef
  pm25_ugm3 : JSVal := .undef
  pm2_5 : JSVal := .undef
  pm2_5_ugm3 : JSVal := .undef
  pm10 : JSVal := .undef
  pm10_ugm3 : JSVal := .undef
  temperature_c : JSVal := .undef
  temp_c : JSVal := .undef
  temperature : JSVal := .undef
  humidity_pct : JSVal := .undef
  humidity : JSVal := .undef
  stove_temp_c : JSVal := .undef
  stove_temp : JSVal := .undef
  fanOn : JSVal := .undef
  buzzerOn : JSVal := .undef
  profile : JSVal := .undef
  windowOpen : JSVal := .undef
  deriving DecidableEq, Repr

/-- A parsed raw MQTT message (the result of a successful `JSON.parse`).
`payloadObj` is `some f` exactly when `raw.payload` is a truthy object (so
`raw.payload && typeof raw.payload === 'object'` holds); `top` carries the
flat top-level measurement fields used otherwise. -/
structure Raw where
  ts : JSVal := .undef
  homeId : JSVal := .undef
  home : JSVal := .undef
  h : JSVal := .undef
  deviceId : JSVal := .undef
  device : JSVal := .undef
  stream : JSVal := .undef
  payloadObj : Option Fields := none
  top : Fields := {}
  deriving DecidableEq, Repr

/-- The canonical normalized payload: `number | undefined` fields become
`Option ℚ`, strict-boolean fields `Option Bool`, `profile` is passed
through verbatim. -/
structure Payload where
  co2 : Option ℚ := none
  co : Option ℚ := none
  pm25 : Option ℚ := none
  pm10 : Option ℚ := none
  temperature_c : Option ℚ := none
  humidity_pct : Option ℚ := none
  stove_temp_c : Option ℚ := none
  fanOn : Option Bool := none
  buzzerOn : Option Bool := none
  profile : JSVal := .undef
  windowOpen : Option Bool := none
  deriving DecidableEq, Repr

/-- `typeof v === 'boolean' ? v : undefined`: the strict boolean-type
check used for `fanOn`, `buzzerOn` and `windowOpen`. -/
def strictBool : JSVal → Option Bool
  | .bool b => some b
  | _ => none

/-- Ambient runtime facts the handler closes over: the current time as an
ISO string (`new Date().toISOString()`), and the behaviour of `new
Date(v)` on an explicit timestamp value (`some iso` when the value parses
to a valid date, `none` when the resulting time is `NaN`). -/
structure Env where
  now : String
  parseDate : JSVal → Option String

/-- `toISO(v)` from mqttService.js: receipt time for a falsy or
unparseable value, else the parsed instant.  Date parsing itself is
environment behaviour, abstracted by `env.parseDate`. -/
def toISO (env : Env) (v : JSVal) : String :=
  if truthy v then
    match env.parseDate v with
    | some iso => iso
    | none => env.now
  else env.now

/-- `inferStream(topic, raw)` from mqttService.js: lower-case the topic,
look for the path segments `/airnode/` and `/stovenode/`, else fall back
to an explicit truthy `raw.stream` uppercased (the JS `||` falls through
when that string is empty, which a truthy value never produces), else
`undefined`. -/
def inferStream (topic : String) (raw : Raw) : Option String :=
  let t := jsLower topic
  if strContains t "/airnode/" then some "AIR"
  else if strContains t "/stovenode/" then some "STOVE"
  else if truthy raw.stream && jsUpper (jsToString raw.stream) != "" then
    some (jsUpper (jsToString raw.stream))
  else none

/-- The canonical normalized message produced by `normalizeMessage`. -/
structure Msg where
  ts : String
  homeId : JSVal
  deviceId : JSVal
  stream : Option String
  payload : Payload
  deriving Repr

/-- `normalizeMessage(topic, raw)` from mqttService.js: timestamp
resolution, identifier alias resolution (with `HOME_\d{2}` extraction from
the deviceId), explicit-stream-else-inferred stream, alias-mapped
canonical payload, and the final presence heuristic when the stream is
still unknown. -/
def normalizeMessage (env : Env) (topic : String) (raw : Raw) : Msg :=
  let ts := toISO env raw.ts
  let homeId := jsOr raw.homeId (jsOr raw.home (jsOr raw.h (extractHomeFromDevice raw.deviceId)))
  let deviceId := jsOr raw.deviceId raw.device
  let stream0 : Option String :=
    if truthy raw.stream && jsUpper (jsToString raw.stream) != "" then
      some (jsUpper (jsToString raw.stream))
    else inferStream topic raw
  let src := raw.payloadObj.getD raw.top
  let payload : Payload :=
    { co2 := pickNumber [src.co2, src.co2_ppm]
      co := pickNumber [src.co, src.co_ppm]
      pm25 := pickNumber [src.pm25, src.pm25_ugm3, src.pm2_5, src.pm2_5_ugm3]
      pm10 := pickNumber [src.pm10, src.pm10_ugm3]
      temperature_c := pickNumber [src.temperature_c, src.temp_c, src.temperature]
      humidity_pct := pickNumber [src.humidity_pct, src.humidity]
      stove_temp_c := pickNumber [src.stove_temp_c, src.stove_temp]
      fanOn := strictBool src.fanOn
      buzzerOn := strictBool src.buzzerOn
      profile := src.profile
      windowOpen := strictBool src.windowOpen }
  let stream : Option String :=
    match stream0 with
    | some s => some s
    | none =>
      if payload.stove_temp_c.isSome then some "STOVE"
      else if payload.co2.isSome || payload.co.isSome || payload.pm25.isSome
          || payload.pm10.isSome then some "AIR"
      else none
  ⟨ts, homeId, deviceId, stream, payload⟩

/-- One alert item, as built in `maybePublishAlerts`: metric type tag,
severity level, observed value and the warn limit reported with it. -/
structure AlertItem where
  type : String
  level : String
  value : ℚ
  limit : ℚ
  deriving DecidableEq, Repr

/-- The Threshold Evaluator: the four threshold checks of
`maybePublishAlerts` in mqttService.js, in source order (CO2, CO, PM2.5,
stove temperature), producing the `alerts` array.  Each guard is
`isFiniteNumber(p.x) && p.x > limit`, which on the canonical payload is
exactly "the field is present and strictly above the limit". -/
def evalAlerts (p : Payload) : List AlertItem :=
  (match p.co2 with
    | some v => if v > 1000 then [⟨"CO2", if v > 1500 then "danger" else "warn", v, 1000⟩] else []
    | none => []) ++
  (match p.co with
    | some v => if v > 35 then [⟨"CO", "danger", v, 35⟩] else []
    | none => []) ++
  (match p.pm25 with
    | some v => if v > 35 then [⟨"PM2_5", if v > 100 then "danger" else "warn", v, 35⟩] else []
    | none => []) ++
  (match p.stove_temp_c with
    | some v => if v > 250 then [⟨"STOVE_TEMP", "danger", v, 250⟩] else []
    | none => [])

/-- The record handed to the Telemetry Store's `saveTelemetry` by the
message handler: normalized identifiers, resolved stream string, canonical
payload, ISO timestamp, and the registry's device reference
(`device?._id`, possibly absent). -/
structure TelemetryRec where
  homeId : JSVal
  deviceId : JSVal
  stream : String
  payload : Payload
  ts : String
  deviceRef : Option String
  deriving DecidableEq, Repr

/-- The alert payload built by `maybePublishAlerts` and published on
`shega/alerts`. -/
structure AlertPayload where
  homeId : JSVal
  deviceId : JSVal
  stream : Option String
  ts : String
  alerts : List AlertItem
  deriving DecidableEq, Repr

/-- The object a Socket.IO emit carries: a persisted telemetry record, a
raw relayed alert, a computed alert payload, or a control-command object
(modelled with its `homeId` property alongside the rest of the object). -/
inductive EmitBody where
  | telem (doc : TelemetryRec)
  | alertRaw (raw : Raw)
  | alert (a : AlertPayload)
  | command (homeId : JSVal) (body : JSVal)
  deriving DecidableEq, Repr

/-- The `homeId` property Socket.IO room scoping reads off the emitted
object (`alertObj.homeId`, `doc.homeId`, `cmdObj.homeId`). -/
def EmitBody.homeIdOf : EmitBody → JSVal
  | .telem doc => doc.homeId
  | .alertRaw raw => raw.homeId
  | .alert a => a.homeId
  | .command hid _ => hid

/-- One observable side effect of the ingestion pipeline, in the order the
code performs them: a console log line (tagged), a Device Registry upsert,
a Telemetry Store append, a Socket.IO room emit, or an MQTT publish of an
alert payload. -/
inductive Effect where
  | log (tag : String)
  | registryUpsert (homeId deviceId : JSVal) (stream : String)
  | storeAppend (doc : TelemetryRec)
  | socketEmit (room : String) (event : String) (body : EmitBody)
  | busPublish (topic : String) (a : AlertPayload)
  deriving DecidableEq, Repr

/-- `getIO()` from sockets/index.js: throws (`Except.error`) when the
server was never initialized, else returns the handle. -/
def getIO (io : Option Unit) : Except String Unit :=
  match io with
  | none => .error "Socket.IO not initialized"
  | some s => .ok s

/-- `emitTelemetry(doc)` from sockets/index.js: silent no-op when the
server is uninitialized, else one emit to the record's home room and one
to the admin room. -/
def emitTelemetry (io : Option Unit) (doc : TelemetryRec) : List Effect :=
  match io with
  | none => []
  | some _ =>
    [.socketEmit ("home:" ++ jsToString doc.homeId) "telemetry" (.telem doc),
     .socketEmit "admin" "telemetry" (.telem doc)]

/-- `emitAlert(alertObj)` from sockets/index.js: silent no-op when
uninitialized, else emits to `home:<alertObj.homeId>` and `admin`. -/
def emitAlert (io : Option Unit) (alertObj : EmitBody) : List Effect :=
  match io with
  | none => []
  | some _ =>
    [.socketEmit ("home:" ++ jsToString alertObj.homeIdOf) "alert" alertObj,
     .socketEmit "admin" "alert" alertObj]

/-- `emitCommand(cmdObj)` from sockets/index.js: silent no-op when
uninitialized, else emits to `home:<cmdObj.homeId>` and `admin`. -/
def emitCommand (io : Option Unit) (cmdObj : EmitBody) : List Effect :=
  match io with
  | none => []
  | some _ =>
    [.socketEmit ("home:" ++ jsToString cmdObj.homeIdOf) "command" cmdObj,
     .socketEmit "admin" "command" cmdObj]

/-- `maybePublishAlerts(msg)` from mqttService.js: no-op when the module's
MQTT client is unset; otherwise run the threshold checks and, only when
the resulting list is non-empty, publish the alert payload on
`shega/alerts`, log, and push it to Socket.IO (the `emitAlert` call is
wrapped in try/catch in the source, so it never aborts the handler). -/
def maybePublishAlerts (env : Env) (clientSet : Bool) (io : Option Unit) (msg : Msg) :
    List Effect :=
  if clientSet then
    let alerts := evalAlerts msg.payload
    if alerts.isEmpty then []
    else
      let a : AlertPayload := ⟨msg.homeId, msg.deviceId, msg.stream, env.now, alerts⟩
      [.busPublish "shega/alerts" a, .log "alert-published"] ++ emitAlert io (.alert a)
  else []

/-- One inbound bus delivery: either bytes that fail `JSON.parse`, or a
parsed raw message on a topic. -/
inductive Inbound where
  | malformed (topic : String)
  | msg (topic : String) (raw : Raw)
  deriving Repr

/-- The `client.on('message', ...)` handler of `startMqtt` in
mqttService.js, as the ordered list of side effects one delivery causes.
Module state and external collaborators are explicit: `io` is the
Socket.IO handle (set or not), `clientSet` whether the module's MQTT
client is set (always true inside `startMqtt`, which assigns it before
installing the handler), `registryResult` the outcome of the awaited
`upsertFromIngest` (`Except.error` models a thrown error, `Except.ok d`
success with device reference `d`), and `storeOk` whether the awaited
`saveTelemetry` succeeds.  A thrown error inside the `try` block lands in
the `catch`, which only logs. -/
def onMessage (env : Env) (io : Option Unit) (clientSet : Bool)
    (registryResult : Except Unit (Option String)) (storeOk : Bool) :
    Inbound → List Effect
  | .malformed _ => [.log "nonjson"]
  | .msg topic raw =>
    let m := normalizeMessage env topic raw
    Effect.log "inbound" ::
      (if topic = "shega/alerts" then emitAlert io (.alertRaw raw)
       else if !truthy m.homeId || !truthy m.deviceId then [.log "missing-ids"]
       else
         match m.stream with
         | none => [.log "no-stream"]
         | some s =>
           Effect.registryUpsert m.homeId m.deviceId s ::
             (match registryResult with
              | .error _ => [.log "message-error"]
              | .ok devRef =>
                let doc : TelemetryRec := ⟨m.homeId, m.deviceId, s, m.payload, m.ts, devRef⟩
                Effect.storeAppend doc ::
                  (if storeOk then
                    Effect.log "saved" ::
                      (emitTelemetry io doc ++ maybePublishAlerts env clientSet io m)
                  else [.log "message-error"])))

/-- A sequence of deliveries processed by the handler.  The handler keeps
no state across invocations (the module bindings it reads are fixed for
the subscription's lifetime), so the effect trace of a batch is the
concatenation of per-message traces. -/
def processAll (env : Env) (io : Option Unit) (clientSet : Bool)
    (registryResult : Except Unit (Option String)) (storeOk : Bool)
    (msgs : List Inbound) : List Effect :=
  msgs.flatMap (onMessage env io clientSet registryResult storeOk)

/-- A device document as the Device Registry returns it to the command
dispatcher. -/
structure Device where
  deviceId : String
  homeId : String
  type : String
  deriving DecidableEq, Repr

/-- The control payload built by `sendDeviceControl`: the device's ids,
the command object verbatim (any type), and the issue timestamp. -/
structure CtrlPayload (α : Type) where
  deviceId : String
  homeId : String
  command : α
  ts : String
  deriving DecidableEq, Repr

/-- The two failures `sendDeviceControl` can throw before publishing:
`Device not found` (status 404) and `MQTT publisher not available`
(status 500). -/
inductive CtrlErr where
  | notFound
  | publisherUnavailable
  deriving DecidableEq, Repr

/-- The `{ ok: true, topic, payload }` success value of
`sendDeviceControl`. -/
structure CtrlOk (α : Type) where
  topic : String
  payload : CtrlPayload α
  deriving DecidableEq, Repr

/-- `sendDeviceControl(deviceId, command)` from deviceControlService.js.
`findByDeviceId` models `Device.findOne({ deviceId })` (`none` = no
match), `mqttAvailable` whether `getMqtt()` yields a publisher with a
`publish` function, `now` the issue instant.  The second component is the
list of bus publishes the call performs (topic and payload), in order:
empty on either failure, exactly one on success. -/
def sendDeviceControl {α : Type} (findByDeviceId : String → Option Device)
    (mqttAvailable : Bool) (now : String) (deviceId : String) (command : α) :
    Except CtrlErr (CtrlOk α) × List (String × CtrlPayload α) :=
  match findByDeviceId deviceId with
  | none => (.error .notFound, [])
  | some device =>
    if mqttAvailable then
      let topic := "shega/" ++ jsLower device.type ++ "/control"
      let payload : CtrlPayload α := ⟨device.deviceId, device.homeId, command, now⟩
      (.ok ⟨topic, payload⟩, [(topic, payload)])
    else (.error .publisherUnavailable, [])

/-- Is this effect an alert publication: the MQTT publish of an alert
payload, or a Socket.IO `alert` event? -/
def isAlertEffect : Effect → Bool
  | .busPublish _ _ => true
  | .socketEmit _ ev _ => ev == "alert"
  | _ => false

/-- Effects other than Socket.IO emissions: console logs, Device Registry
upserts, Telemetry Store appends and MQTT publishes. -/
def nonSocketEffect : Effect → Bool
  | .socketEmit _ _ _ => false
  | _ => true

/-- A fixed concrete environment used to evaluate the pipeline on sample
inputs: receipt time `"2024-01-01T00:00:00.000Z"`, and a `Date`
constructor that parses nothing. -/
def envW : Env := ⟨"2024-01-01T00:00:00.000Z", fun _ => none⟩

/-- The character list `l` contains an occurrence of the pattern
`HOME_` followed by two decimal digits (the language of the regex
`/HOME_\d{2}/`). -/
def hasHomeCodeP (l : List Char) : Prop :=
  ∃ l₁ d1 d2 l₂, d1.isDigit = true ∧ d2.isDigit = true ∧
    l = l₁ ++ 'H' :: 'O' :: 'M' :: 'E' :: '_' :: d1 :: d2 :: l₂

/-- A concrete normalized message with a CO2 reading above the danger
threshold, used to evaluate alert publication on a sample input. -/
def msgW7 : Msg := ⟨envW.now, .str "HOME_01", .str "A1", some "AIR", { co2 := some 1600 }⟩

/-- A concrete raw telemetry message with resolvable identifiers and a
CO2 reading above the danger threshold. -/
def rawW4 : Raw := { homeId := .str "HOME_01", deviceId := .str "A1", top := { co2 := .num 1600 } }

/-- A concrete Device Registry for evaluating the command dispatcher: one
stove node registered under "D1". -/
def findW : String → Option Device :=
  fun s => if s = "D1" then some ⟨"D1", "HOME_01", "STOVENODE"⟩ else none

/-! ## Theorems -/

theorem evalAlerts_filter_co2 (p : Payload) :
    (evalAlerts p).filter (fun a => a.type == "CO2") =
      (match p.co2 with
       | some v =>
         if v > 1000 then [⟨"CO2", if v > 1500 then "danger" else "warn", v, 1000⟩] else []
       | none => []) := by
  unfold evalAlerts
  rcases p.co2 with _ | v <;> rcases p.co with _ | w <;> rcases p.pm25 with _ | x <;>
    rcases p.stove_temp_c with _ | y <;> simp only [List.filter_append]
  all_goals try split_ifs
  all_goals simp_all [List.filter]

theorem evalAlerts_filter_co (p : Payload) :
    (evalAlerts p).filter (fun a => a.type == "CO") =
      (match p.co with
       | some v => if v > 35 then [⟨"CO", "danger", v, 35⟩] else []
       | none => []) := by
  unfold evalAlerts
  rcases p.co2 with _ | v <;> rcases p.co with _ | w <;> rcases p.pm25 with _ | x <;>
    rcases p.stove_temp_c with _ | y <;> simp only [List.filter_append]
  all_goals try split_ifs
  all_goals simp_all [List.filter]

theorem evalAlerts_filter_pm25 (p : Payload) :
    (evalAlerts p).filter (fun a => a.type == "PM2_5") =
      (match p.pm25 with
       | some v =>
         if v > 35 then [⟨"PM2_5", if v > 100 then "danger" else "warn", v, 35⟩] else []
       | none => []) := by
  unfold evalAlerts
  rcases p.co2 with _ | v <;> rcases p.co with _ | w <;> rcases p.pm25 with _ | x <;>
    rcases p.stove_temp_c with _ | y <;> simp only [List.filter_append]
  all_goals try split_ifs
  all_goals simp_all [List.filter]

theorem evalAlerts_filter_stove (p : Payload) :
    (evalAlerts p).filter (fun a => a.type == "STOVE_TEMP") =
      (match p.stove_temp_c with
       | some v => if v > 250 then [⟨"STOVE_TEMP", "danger", v, 250⟩] else []
       | none => []) := by
  unfold evalAlerts
  rcases p.co2 with _ | v <;> rcases p.co with _ | w <;> rcases p.pm25 with _ | x <;>
    rcases p.stove_temp_c with _ | y <;> simp only [List.filter_append]
  all_goals try split_ifs
  all_goals simp_all [List.filter]

/-- Claim C1 (amended): for every canonical payload the Threshold
Evaluator treats each metric (CO2 warn 1000 / danger 1500, CO danger 35,
PM2.5 warn 35 / danger 100, stove temperature danger 250) as follows: an
absent value is skipped and contributes no item; a value strictly greater
than the danger threshold yields exactly one danger item for that metric
and no warn item; otherwise a value strictly greater than the warn
threshold yields exactly one warn item; otherwise no item (in particular,
a value exactly equal to a threshold produces the lower tier).  A reading
with co2 = 1600 yields exactly one CO2 item
{type CO2, level danger, value 1600, limit 1000} and no CO2 warn item. -/
theorem c1_threshold_evaluator (p : Payload) :
    (p.co2 = none → (evalAlerts p).filter (fun a => a.type == "CO2") = [])
  ∧ (∀ v, p.co2 = some v → 1500 < v →
      (evalAlerts p).filter (fun a => a.type == "CO2") = [⟨"CO2", "danger", v, 1000⟩])
  ∧ (∀ v, p.co2 = some v → 1000 < v → v ≤ 1500 →
      (evalAlerts p).filter (fun a => a.type == "CO2") = [⟨"CO2", "warn", v, 1000⟩])
  ∧ (∀ v, p.co2 = some v → v ≤ 1000 → (evalAlerts p).filter (fun a => a.type == "CO2") = [])
  ∧ (p.co = none → (evalAlerts p).filter (fun a => a.type == "CO") = [])
  ∧ (∀ v, p.co = some v → 35 < v →
      (evalAlerts p).filter (fun a => a.type == "CO") = [⟨"CO", "danger", v, 35⟩])
  ∧ (∀ v, p.co = some v → v ≤ 35 → (evalAlerts p).filter (fun a => a.type == "CO") = [])
  ∧ (p.pm25 = none → (evalAlerts p).filter (fun a => a.type == "PM2_5") = [])
  ∧ (∀ v, p.pm25 = some v → 100 < v →
      (evalAlerts p).filter (fun a => a.type == "PM2_5") = [⟨"PM2_5", "danger", v, 35⟩])
  ∧ (∀ v, p.pm25 = some v → 35 < v → v ≤ 100 →
      (evalAlerts p).filter (fun a => a.type == "PM2_5") = [⟨"PM2_5", "warn", v, 35⟩])
  ∧ (∀ v, p.pm25 = some v → v ≤ 35 → (evalAlerts p).filter (fun a => a.type == "PM2_5") = [])
  ∧ (p.stove_temp_c = none → (evalAlerts p).filter (fun a => a.type == "STOVE_TEMP") = [])
  ∧ (∀ v, p.stove_temp_c = some v → 250 < v →
      (evalAlerts p).filter (fun a => a.type == "STOVE_TEMP") = [⟨"STOVE_TEMP", "danger", v, 250⟩])
  ∧ (∀ v, p.stove_temp_c = some v → v ≤ 250 →
      (evalAlerts p).filter (fun a => a.type == "STOVE_TEMP") = [])
  ∧ (p.co2 = some 1600 →
      (evalAlerts p).filter (fun a => a.type == "CO2") = [⟨"CO2", "danger", 1600, 1000⟩]) := by
  refine ⟨?_, ?_, ?_, ?_, ?_, ?_, ?_, ?_, ?_, ?_, ?_, ?_, ?_, ?_, ?_⟩ <;>
    first
    | (intro h
       (first
        | rw [evalAlerts_filter_co2] | rw [evalAlerts_filter_co]
        | rw [evalAlerts_filter_pm25] | rw [evalAlerts_filter_stove])
       simp [h]
       all_goals decide)
    | (intro v hv hlt
       first
       | (rw [evalAlerts_filter_co2]; rw [hv]; simp only
          split_ifs with h1 h2 <;> first | rfl | (exfalso; linarith))
       | (rw [evalAlerts_filter_co]; rw [hv]; simp only
          split_ifs with h1 <;> first | rfl | (exfalso; linarith))
       | (rw [evalAlerts_filter_pm25]; rw [hv]; simp only
          split_ifs with h1 h2 <;> first | rfl | (exfalso; linarith))
       | (rw [evalAlerts_filter_stove]; rw [hv]; simp only
          split_ifs with h1 <;> first | rfl | (exfalso; linarith)))
    | (intro v hv h1 h2
       first
       | (rw [evalAlerts_filter_co2]; rw [hv]; simp only
          split_ifs with hA hB <;> first | rfl | (exfalso; linarith))
       | (rw [evalAlerts_filter_pm25]; rw [hv]; simp only
          split_ifs with hA hB <;> first | rfl | (exfalso; linarith)))

/-- Claim C1, counterexample to the claim as stated: the claim requires
that a value greater than *or equal to* the warn threshold yields a warn
item, but for a reading with co2 exactly 1000 (the CO2 warn threshold) the
evaluator emits nothing, because the source compares with strict `>`
(`p.co2 > 1000`).  Likewise a value equal to a danger threshold stays in
the lower tier. -/
theorem c1_counterexample :
    ({ co2 := some 1000 } : Payload).co2 = some 1000 ∧ (1000 : ℚ) ≥ 1000 ∧
      evalAlerts { co2 := some 1000 } = [] := by
  refine ⟨rfl, le_refl _, by decide⟩

/-- Claim C1, witness: the amended theorem applied to the concrete payload
with co2 = 1600 discharges its hypotheses and yields the single CO2 danger
item of the claim's example. -/
theorem c1_witness :
    (evalAlerts { co2 := some 1600 }).filter (fun a => a.type == "CO2") =
      [⟨"CO2", "danger", 1600, 1000⟩] :=
  (c1_threshold_evaluator { co2 := some 1600 }).2.2.2.2.2.2.2.2.2.2.2.2.2.2 rfl

theorem mem_emitTelemetry {io : Option Unit} {doc : TelemetryRec} {e : Effect}
    (hm : e ∈ emitTelemetry io doc) :
    ∃ room, e = .socketEmit room "telemetry" (.telem doc) := by
  cases io <;> simp [emitTelemetry] at hm
  rcases hm with h | h <;> exact ⟨_, h⟩

theorem mem_emitAlert {io : Option Unit} {b : EmitBody} {e : Effect}
    (hm : e ∈ emitAlert io b) : ∃ room, e = .socketEmit room "alert" b := by
  cases io <;> simp [emitAlert] at hm
  rcases hm with h | h <;> exact ⟨_, h⟩

theorem mem_maybePublishAlerts {env : Env} {clientSet : Bool} {io : Option Unit}
    {msg : Msg} {e : Effect} (hm : e ∈ maybePublishAlerts env clientSet io msg) :
    evalAlerts msg.payload ≠ [] ∧
      (e = .busPublish "shega/alerts"
            ⟨msg.homeId, msg.deviceId, msg.stream, env.now, evalAlerts msg.payload⟩ ∨
       e = .log "alert-published" ∨
       ∃ room, e = .socketEmit room "alert"
            (.alert ⟨msg.homeId, msg.deviceId, msg.stream, env.now, evalAlerts msg.payload⟩)) := by
  by_cases hc : clientSet = true
  · subst hc
    by_cases hE : evalAlerts msg.payload = []
    · simp [maybePublishAlerts, hE] at hm
    · have hE' : (evalAlerts msg.payload).isEmpty = false := by
        cases h : evalAlerts msg.payload with
        | nil => exact absurd h hE
        | cons x l => rfl
      refine ⟨hE, ?_⟩
      simp only [maybePublishAlerts, if_true, hE', Bool.false_eq_true, if_false,
        List.cons_append, List.nil_append, List.mem_cons] at hm
      rcases hm with h | h | h
      · exact Or.inl h
      · exact Or.inr (Or.inl h)
      · rcases mem_emitAlert h with ⟨room, hr⟩
        exact Or.inr (Or.inr ⟨room, hr⟩)
  · have hcf : clientSet = false := by simpa using hc
    simp [maybePublishAlerts, hcf] at hm

/-- Claim C7: on every processed telemetry message, an AlertRecord is
published (to the bus alerts channel, and pushed to Live Fan-out when the
socket server is up) if and only if the Threshold Evaluator yields one or
more items; when it yields zero items nothing at all is emitted, and no
published AlertRecord ever carries an empty items list.  `clientSet` is
true inside `startMqtt`, which assigns the client before installing the
handler. -/
theorem c7_alert_iff_items (env : Env) (io : Option Unit) (msg : Msg) (clientSet : Bool)
    (hc : clientSet = true) :
    ((∃ e ∈ maybePublishAlerts env clientSet io msg, isAlertEffect e = true) ↔
       evalAlerts msg.payload ≠ [])
  ∧ (maybePublishAlerts env clientSet io msg = [] ↔ evalAlerts msg.payload = [])
  ∧ (∀ t a, Effect.busPublish t a ∈ maybePublishAlerts env clientSet io msg →
       a.alerts = evalAlerts msg.payload ∧ a.alerts ≠ [])
  ∧ (∀ topic raw regRes storeOk t a,
       Effect.busPublish t a ∈ onMessage env io clientSet regRes storeOk (.msg topic raw) →
       Effect.busPublish t a ∈
         maybePublishAlerts env clientSet io (normalizeMessage env topic raw)) := by
  subst hc
  refine ⟨?_, ?_, ?_, ?_⟩
  · constructor
    · rintro ⟨e, he, -⟩
      exact (mem_maybePublishAlerts he).1
    · intro hne
      refine ⟨.busPublish "shega/alerts"
        ⟨msg.homeId, msg.deviceId, msg.stream, env.now, evalAlerts msg.payload⟩, ?_, rfl⟩
      unfold maybePublishAlerts
      have hE : (evalAlerts msg.payload).isEmpty = false := by
        cases h : evalAlerts msg.payload with
        | nil => exact absurd h hne
        | cons a l => simp [List.isEmpty]
      simp [hE]
  · constructor
    · intro h0
      by_contra hne
      have : (Effect.busPublish "shega/alerts"
          ⟨msg.homeId, msg.deviceId, msg.stream, env.now, evalAlerts msg.payload⟩) ∈
          maybePublishAlerts env true io msg := by
        unfold maybePublishAlerts
        have hE : (evalAlerts msg.payload).isEmpty = false := by
          cases h : evalAlerts msg.payload with
          | nil => exact absurd h hne
          | cons a l => simp [List.isEmpty]
        simp [hE]
      rw [h0] at this
      simp at this
    · intro h
      unfold maybePublishAlerts
      simp [h, List.isEmpty]
  · intro t a hm
    rcases mem_maybePublishAlerts hm with ⟨hne, h | h | ⟨room, h⟩⟩
    · cases h; exact ⟨rfl, hne⟩
    · cases h
    · cases h
  · intro topic raw regRes storeOk t a hm
    unfold onMessage at hm
    simp only [List.mem_cons] at hm
    rcases hm with h | hm
    · cases h
    by_cases hT : topic = "shega/alerts"
    · simp only [hT, if_true] at hm
      rcases mem_emitAlert hm with ⟨room, hr⟩
      cases hr
    · simp only [hT, if_false] at hm
      by_cases hG : !truthy (normalizeMessage env topic raw).homeId
          || !truthy (normalizeMessage env topic raw).deviceId
      · simp [hG] at hm
      · simp only [hG, Bool.false_eq_true, if_false] at hm
        cases hs : (normalizeMessage env topic raw).stream with
        | none => rw [hs] at hm; simp at hm
        | some s =>
          rw [hs] at hm
          simp only [List.mem_cons] at hm
          rcases hm with h | hm
          · cases h
          cases regRes with
          | error u => simp at hm
          | ok devRef =>
            simp only [List.mem_cons] at hm
            rcases hm with h | hm
            · cases h
            by_cases hS : storeOk
            · simp only [hS, if_true, List.mem_cons, List.mem_append] at hm
              rcases hm with h | h | h
              · cases h
              · rcases mem_emitTelemetry h with ⟨room, hr⟩; cases hr
              · exact h
            · simp [hS] at hm

/-- Claim C7, witness: the theorem applied to a concrete message with
co2 = 1600 and the client set; its second conjunct instantiated. -/
theorem c7_witness :
    (maybePublishAlerts envW true (some ()) msgW7 = [] ↔ evalAlerts msgW7.payload = []) :=
  (c7_alert_iff_items envW (some ()) msgW7 true rfl).2.1

/-- Claim C4: for every inbound telemetry message (any topic other than
the alerts channel), an alert is published only after the triggering
reading was successfully persisted: if the trace of the message contains
any alert effect (bus publish of an alert, or a Socket.IO alert event),
then the store append succeeded, the registry upsert succeeded, and the
trace decomposes into an alert-free prefix that contains the store append,
followed by the alert-publication phase.  When the registry upsert or the
store append fails, no alert effect can occur (it would contradict the
alert-free failing traces). -/
theorem c4_alerts_after_persistence (env : Env) (io : Option Unit) (clientSet : Bool)
    (regRes : Except Unit (Option String)) (storeOk : Bool) (topic : String) (raw : Raw)
    (hT : topic ≠ "shega/alerts")
    (hA : ∃ e ∈ onMessage env io clientSet regRes storeOk (.msg topic raw),
        isAlertEffect e = true) :
    storeOk = true ∧ (∃ d, regRes = Except.ok d) ∧
    ∃ pre suf, onMessage env io clientSet regRes storeOk (.msg topic raw) = pre ++ suf ∧
      (∃ doc, Effect.storeAppend doc ∈ pre) ∧
      (∀ e ∈ pre, isAlertEffect e = false) ∧
      suf = maybePublishAlerts env clientSet io (normalizeMessage env topic raw) := by
  obtain ⟨e, he, hae⟩ := hA
  unfold onMessage at he ⊢
  simp only [hT, if_false, List.mem_cons] at he ⊢
  rcases he with h | he
  · subst h; simp [isAlertEffect] at hae
  by_cases hG : !truthy (normalizeMessage env topic raw).homeId
      || !truthy (normalizeMessage env topic raw).deviceId
  · simp [hG] at he
    subst he; simp [isAlertEffect] at hae
  simp only [hG, Bool.false_eq_true, if_false] at he ⊢
  cases hs : (normalizeMessage env topic raw).stream with
  | none =>
    rw [hs] at he; simp at he
    subst he; simp [isAlertEffect] at hae
  | some s =>
    rw [hs] at he
    simp only [List.mem_cons] at he
    rcases he with h | he
    · subst h; simp [isAlertEffect] at hae
    cases regRes with
    | error u =>
      simp at he
      subst he; simp [isAlertEffect] at hae
    | ok devRef =>
      simp only [List.mem_cons] at he
      rcases he with h | he
      · subst h; simp [isAlertEffect] at hae
      by_cases hS : storeOk
      · subst hS
        refine ⟨rfl, ⟨devRef, rfl⟩, ?_⟩
        refine ⟨Effect.log "inbound" ::
            Effect.registryUpsert (normalizeMessage env topic raw).homeId
              (normalizeMessage env topic raw).deviceId s ::
            Effect.storeAppend ⟨(normalizeMessage env topic raw).homeId,
              (normalizeMessage env topic raw).deviceId, s,
              (normalizeMessage env topic raw).payload,
              (normalizeMessage env topic raw).ts, devRef⟩ ::
            Effect.log "saved" ::
            emitTelemetry io ⟨(normalizeMessage env topic raw).homeId,
              (normalizeMessage env topic raw).deviceId, s,
              (normalizeMessage env topic raw).payload,
              (normalizeMessage env topic raw).ts, devRef⟩,
          maybePublishAlerts env clientSet io (normalizeMessage env topic raw),
          ?_, ⟨⟨(normalizeMessage env topic raw).homeId,
              (normalizeMessage env topic raw).deviceId, s,
              (normalizeMessage env topic raw).payload,
              (normalizeMessage env topic raw).ts, devRef⟩, by simp⟩, ?_, rfl⟩
        · rfl
        · intro x hx
          simp only [List.mem_cons] at hx
          rcases hx with h | h | h | h | h
          · subst h; rfl
          · subst h; rfl
          · subst h; rfl
          · subst h; rfl
          · rcases mem_emitTelemetry h with ⟨room, hr⟩
            subst hr; rfl
      · exfalso
        simp [hS] at he
        subst he
        simp [isAlertEffect] at hae

/-- Claim C4, witness: the theorem applied to a concrete telemetry message
(co2 = 1600) whose trace does publish an alert, with both collaborators
succeeding. -/
theorem c4_witness :
    true = true ∧ (∃ d, (Except.ok none : Except Unit (Option String)) = Except.ok d) ∧
    ∃ pre suf,
      onMessage envW (some ()) true (Except.ok none) true (.msg "shega/a/data" rawW4) =
        pre ++ suf ∧
      (∃ doc, Effect.storeAppend doc ∈ pre) ∧
      (∀ e ∈ pre, isAlertEffect e = false) ∧
      suf = maybePublishAlerts envW true (some ())
              (normalizeMessage envW "shega/a/data" rawW4) :=
  c4_alerts_after_persistence envW (some ()) true (Except.ok none) true "shega/a/data" rawW4
    (by decide) (by decide)

/-- When the raw message carries no (truthy) explicit `stream` field, the
normalizer can only resolve the stream to AIR, to STOVE, or not at all:
the topic hints and the presence heuristic produce nothing else. -/
theorem stream_resolution_cases (env : Env) (topic : String) (raw : Raw)
    (h : truthy raw.stream = false) :
    (normalizeMessage env topic raw).stream = none ∨
    (normalizeMessage env topic raw).stream = some "AIR" ∨
    (normalizeMessage env topic raw).stream = some "STOVE" := by
  simp only [normalizeMessage, inferStream, h, Bool.false_and, if_false]
  split_ifs <;> simp_all

/-- Claim C2 (amended): for every inbound telemetry message (topic other
than the alerts channel), the Telemetry Store append is invoked only when
the normalized record has a truthy (for strings: non-empty) homeId, a
truthy deviceId and a resolved (defined) stream, and the appended record
carries exactly those fields; if any of the three cannot be resolved the
message is logged and dropped with no persistence call at all.  Every
record persisted from a message *without an explicit truthy stream field*
has stream AIR or STOVE; a message with an explicit stream field is
persisted with that field's uppercased string, whatever it is. -/
theorem c2_persist_guards (env : Env) (io : Option Unit) (clientSet : Bool)
    (regRes : Except Unit (Option String)) (storeOk : Bool) (topic : String) (raw : Raw)
    (hT : topic ≠ "shega/alerts") :
    (∀ doc, Effect.storeAppend doc ∈ onMessage env io clientSet regRes storeOk (.msg topic raw) →
       truthy (normalizeMessage env topic raw).homeId = true ∧
       truthy (normalizeMessage env topic raw).deviceId = true ∧
       (normalizeMessage env topic raw).stream = some doc.stream ∧
       doc.homeId = (normalizeMessage env topic raw).homeId ∧
       doc.deviceId = (normalizeMessage env topic raw).deviceId ∧
       (truthy raw.stream = false → doc.stream = "AIR" ∨ doc.stream = "STOVE"))
  ∧ ((truthy (normalizeMessage env topic raw).homeId = false ∨
      truthy (normalizeMessage env topic raw).deviceId = false ∨
      (normalizeMessage env topic raw).stream = none) →
       (∀ doc,
          Effect.storeAppend doc ∉ onMessage env io clientSet regRes storeOk (.msg topic raw)) ∧
       (Effect.log "missing-ids" ∈ onMessage env io clientSet regRes storeOk (.msg topic raw) ∨
        Effect.log "no-stream" ∈ onMessage env io clientSet regRes storeOk (.msg topic raw))) := by
  constructor
  · intro doc hm
    unfold onMessage at hm
    simp only [hT, if_false, List.mem_cons] at hm
    rcases hm with h | hm
    · cases h
    by_cases hG : !truthy (normalizeMessage env topic raw).homeId
        || !truthy (normalizeMessage env topic raw).deviceId
    · simp [hG] at hm
    have hHome : truthy (normalizeMessage env topic raw).homeId = true := by
      by_contra hc
      simp only [Bool.not_eq_true] at hc
      simp [hc] at hG
    have hDev : truthy (normalizeMessage env topic raw).deviceId = true := by
      by_contra hc
      simp only [Bool.not_eq_true] at hc
      simp [hc] at hG
    simp only [hG, Bool.false_eq_true, if_false] at hm
    cases hs : (normalizeMessage env topic raw).stream with
    | none => rw [hs] at hm; simp at hm
    | some s =>
      rw [hs] at hm
      simp only [List.mem_cons] at hm
      rcases hm with h | hm
      · cases h
      cases regRes with
      | error u => simp at hm
      | ok devRef =>
        simp only [List.mem_cons] at hm
        rcases hm with h | hm
        · injection h with h0
          subst h0
          refine ⟨hHome, hDev, rfl, rfl, rfl, ?_⟩
          intro hns
          rcases stream_resolution_cases env topic raw hns with h0 | h0 | h0
          · rw [hs] at h0; exact Option.noConfusion h0
          · rw [hs] at h0; exact Or.inl (Option.some.inj h0)
          · rw [hs] at h0; exact Or.inr (Option.some.inj h0)
        · exfalso
          by_cases hS : storeOk
          · simp only [hS, if_true, List.mem_cons, List.mem_append] at hm
            rcases hm with h | h | h
            · cases h
            · rcases mem_emitTelemetry h with ⟨room, hr⟩; cases hr
            · rcases mem_maybePublishAlerts h with ⟨-, h0 | h0 | ⟨room, h0⟩⟩ <;> cases h0
          · simp [hS] at hm
  · intro hbad
    by_cases hG : !truthy (normalizeMessage env topic raw).homeId
        || !truthy (normalizeMessage env topic raw).deviceId
    · constructor
      · intro doc hm
        unfold onMessage at hm
        simp [hT, hG] at hm
      · left
        unfold onMessage
        simp [hT, hG]
    · have hHome : truthy (normalizeMessage env topic raw).homeId = true := by
        by_contra hc
        simp only [Bool.not_eq_true] at hc
        simp [hc] at hG
      have hDev : truthy (normalizeMessage env topic raw).deviceId = true := by
        by_contra hc
        simp only [Bool.not_eq_true] at hc
        simp [hc] at hG
      have hs : (normalizeMessage env topic raw).stream = none := by
        rcases hbad with h0 | h0 | h0
        · rw [hHome] at h0; cases h0
        · rw [hDev] at h0; cases h0
        · exact h0
      constructor
      · intro doc hm
        unfold onMessage at hm
        simp only [hT, if_false, List.mem_cons] at hm
        rcases hm with h | hm
        · cases h
        simp only [hG, Bool.false_eq_true, if_false] at hm
        rw [hs] at hm
        simp at hm
      · right
        unfold onMessage
        simp only [hT, if_false, List.mem_cons]
        right
        simp only [hG, Bool.false_eq_true, if_false]
        rw [hs]
        simp

/-- Claim C2, counterexample to the claim as stated: the claim's final
conjunct says every persisted record has stream AIR or STOVE, but the
guard in the handler only checks that the stream string is truthy.  A
message carrying an explicit `stream: "BOGUS"` together with valid
identifiers is persisted with stream "BOGUS". -/
theorem c2_counterexample :
    Effect.storeAppend
        ⟨.str "HOME_01", .str "DEV_1", "BOGUS", {}, envW.now, none⟩ ∈
      onMessage envW (some ()) true (Except.ok none) true
        (.msg "shega/x/data"
          { homeId := .str "HOME_01", deviceId := .str "DEV_1", stream := .str "BOGUS" }) ∧
      ("BOGUS" : String) ≠ "AIR" ∧ ("BOGUS" : String) ≠ "STOVE" := by
  refine ⟨by decide, by decide, by decide⟩

/-- Claim C2, witness: the amended theorem applied to a concrete telemetry
message with resolvable identifiers. -/
theorem c2_witness :
    (∀ doc,
       Effect.storeAppend doc ∈
         onMessage envW (some ()) true (Except.ok none) true (.msg "shega/a/data" rawW4) →
       truthy (normalizeMessage envW "shega/a/data" rawW4).homeId = true ∧
       truthy (normalizeMessage envW "shega/a/data" rawW4).deviceId = true ∧
       (normalizeMessage envW "shega/a/data" rawW4).stream = some doc.stream ∧
       doc.homeId = (normalizeMessage envW "shega/a/data" rawW4).homeId ∧
       doc.deviceId = (normalizeMessage envW "shega/a/data" rawW4).deviceId ∧
       (truthy rawW4.stream = false → doc.stream = "AIR" ∨ doc.stream = "STOVE"))
  ∧ ((truthy (normalizeMessage envW "shega/a/data" rawW4).homeId = false ∨
      truthy (normalizeMessage envW "shega/a/data" rawW4).deviceId = false ∨
      (normalizeMessage envW "shega/a/data" rawW4).stream = none) →
       (∀ doc,
          Effect.storeAppend doc ∉
            onMessage envW (some ()) true (Except.ok none) true (.msg "shega/a/data" rawW4)) ∧
       (Effect.log "missing-ids" ∈
          onMessage envW (some ()) true (Except.ok none) true (.msg "shega/a/data" rawW4) ∨
        Effect.log "no-stream" ∈
          onMessage envW (some ()) true (Except.ok none) true (.msg "shega/a/data" rawW4))) :=
  c2_persist_guards envW (some ()) true (Except.ok none) true "shega/a/data" rawW4 (by decide)

/-- Claim C9: an inbound message whose bytes fail to parse causes only a
warning log — zero Device Registry calls, zero Telemetry Store calls, zero
Socket.IO pushes, zero bus publishes — and a batch containing it processes
all other messages exactly as it would without it (the handler is a pure
function of one delivery, surfacing no error). -/
theorem c9_malformed_isolation (env : Env) (io : Option Unit) (clientSet : Bool)
    (regRes : Except Unit (Option String)) (storeOk : Bool) (t : String)
    (pre suf : List Inbound) :
    onMessage env io clientSet regRes storeOk (.malformed t) = [.log "nonjson"]
  ∧ (∀ hm d s, Effect.registryUpsert hm d s ∉
       onMessage env io clientSet regRes storeOk (.malformed t))
  ∧ (∀ doc, Effect.storeAppend doc ∉ onMessage env io clientSet regRes storeOk (.malformed t))
  ∧ (∀ room ev b, Effect.socketEmit room ev b ∉
       onMessage env io clientSet regRes storeOk (.malformed t))
  ∧ (∀ topic a, Effect.busPublish topic a ∉
       onMessage env io clientSet regRes storeOk (.malformed t))
  ∧ processAll env io clientSet regRes storeOk (pre ++ .malformed t :: suf) =
      processAll env io clientSet regRes storeOk pre ++
        Effect.log "nonjson" :: processAll env io clientSet regRes storeOk suf := by
  refine ⟨rfl, ?_, ?_, ?_, ?_, ?_⟩
  · intro hm d s; simp [onMessage]
  · intro doc; simp [onMessage]
  · intro room ev b; simp [onMessage]
  · intro topic a; simp [onMessage]
  · simp [processAll, onMessage]

theorem filter_nonSocket_emitTelemetry (io : Option Unit) (doc : TelemetryRec) :
    (emitTelemetry io doc).filter nonSocketEffect = [] := by
  cases io <;> rfl

theorem filter_nonSocket_emitAlert (io : Option Unit) (b : EmitBody) :
    (emitAlert io b).filter nonSocketEffect = [] := by
  cases io <;> rfl

theorem filter_nonSocket_maybePublish (env : Env) (cs : Bool) (io : Option Unit) (msg : Msg) :
    (maybePublishAlerts env cs io msg).filter nonSocketEffect =
      (maybePublishAlerts env cs (some ()) msg).filter nonSocketEffect := by
  cases cs
  · rfl
  · by_cases hE : (evalAlerts msg.payload).isEmpty
    · simp [maybePublishAlerts, hE]
    · simp [maybePublishAlerts, hE, List.filter_append, List.filter,
        filter_nonSocket_emitAlert, nonSocketEffect]

/-- Claim C10: when the Socket.IO server was never initialized, the three
fan-out operations are silent no-ops (they return without emitting and
without raising), `getIO` raises, and the ingestion pipeline's non-socket
effects — registry upserts, store appends, bus publishes, logs — are
identical with and without the socket server. -/
theorem c10_fanout_noop :
    (∀ doc, emitTelemetry none doc = [])
  ∧ (∀ b, emitAlert none b = [])
  ∧ (∀ b, emitCommand none b = [])
  ∧ getIO none = .error "Socket.IO not initialized"
  ∧ (∀ env clientSet regRes storeOk inb,
      (onMessage env none clientSet regRes storeOk inb).filter nonSocketEffect =
      (onMessage env (some ()) clientSet regRes storeOk inb).filter nonSocketEffect) := by
  refine ⟨fun doc => rfl, fun b => rfl, fun b => rfl, rfl, ?_⟩
  intro env clientSet regRes storeOk inb
  cases inb with
  | malformed t => rfl
  | msg topic raw =>
    simp only [onMessage]
    by_cases hT : topic = "shega/alerts"
    · simp [hT, List.filter, filter_nonSocket_emitAlert, nonSocketEffect]
    · simp only [hT, if_false]
      by_cases hG : !truthy (normalizeMessage env topic raw).homeId
          || !truthy (normalizeMessage env topic raw).deviceId
      · simp [hG]
      · simp only [hG, Bool.false_eq_true, if_false]
        cases hs : (normalizeMessage env topic raw).stream with
        | none => simp
        | some s =>
          cases regRes with
          | error u => simp [List.filter]
          | ok d =>
            by_cases hS : storeOk
            · simp [hS, List.filter_append, List.filter, nonSocketEffect,
                filter_nonSocket_emitTelemetry, filter_nonSocket_maybePublish]
            · simp [hS, List.filter]

theorem jsUpper_ne_empty {s : String} (h : s ≠ "") : jsUpper s ≠ "" := by
  intro hc
  apply h
  have hd : s.data.map Char.toUpper = [] := by
    have : (jsUpper s).data = ("" : String).data := by rw [hc]
    exact this
  have hnil : s.data = [] := List.map_eq_nil.mp hd
  cases s
  simp_all

/-- Claim C5 (amended): the Normalizer resolves the stream in priority
order: a truthy explicit `stream` field wins (uppercased verbatim — for a
non-empty string field the stream is its uppercase image); otherwise a
topic hint — the lower-cased topic containing the path segment
`/airnode/` gives AIR, else containing `/stovenode/` gives STOVE (a bare
`airnode` substring without the surrounding slashes is *not* a hint);
otherwise the presence heuristic (a finite stove-temperature measurement
gives STOVE, else any finite co2/co/pm25/pm10 measurement gives AIR);
otherwise the stream is unresolved. -/
theorem c5_stream_priority (env : Env) (topic : String) (raw : Raw) :
    (∀ s : String, raw.stream = .str s → s ≠ "" →
       (normalizeMessage env topic raw).stream = some (jsUpper s))
  ∧ (truthy raw.stream = false → strContains (jsLower topic) "/airnode/" = true →
       (normalizeMessage env topic raw).stream = some "AIR")
  ∧ (truthy raw.stream = false → strContains (jsLower topic) "/airnode/" = false →
       strContains (jsLower topic) "/stovenode/" = true →
       (normalizeMessage env topic raw).stream = some "STOVE")
  ∧ (truthy raw.stream = false → strContains (jsLower topic) "/airnode/" = false →
       strContains (jsLower topic) "/stovenode/" = false →
       (((normalizeMessage env topic raw).payload.stove_temp_c.isSome = true →
          (normalizeMessage env topic raw).stream = some "STOVE")
       ∧ ((normalizeMessage env topic raw).payload.stove_temp_c = none →
          ((normalizeMessage env topic raw).payload.co2.isSome ∨
           (normalizeMessage env topic raw).payload.co.isSome ∨
           (normalizeMessage env topic raw).payload.pm25.isSome ∨
           (normalizeMessage env topic raw).payload.pm10.isSome) →
          (normalizeMessage env topic raw).stream = some "AIR")
       ∧ ((normalizeMessage env topic raw).payload.stove_temp_c = none →
          (normalizeMessage env topic raw).payload.co2 = none →
          (normalizeMessage env topic raw).payload.co = none →
          (normalizeMessage env topic raw).payload.pm25 = none →
          (normalizeMessage env topic raw).payload.pm10 = none →
          (normalizeMessage env topic raw).stream = none))) := by
  refine ⟨?_, ?_, ?_, ?_⟩
  · intro s hs hne
    have htr : truthy raw.stream = true := by rw [hs]; simp [truthy, hne]
    have hup : jsUpper (jsToString raw.stream) = jsUpper s := by rw [hs]; rfl
    have hupne : (jsUpper s != "") = true := by
      simpa using jsUpper_ne_empty hne
    simp [normalizeMessage, htr, hup, hupne]
  · intro hf hair
    simp [normalizeMessage, inferStream, hf, hair]
  · intro hf hair hstove
    simp [normalizeMessage, inferStream, hf, hair, hstove]
  · intro hf hair hstove
    refine ⟨?_, ?_, ?_⟩
    · intro hp
      simp only [normalizeMessage] at hp ⊢
      simp only [inferStream, hf, hair, hstove, Bool.false_and, if_false] at hp ⊢
      simp_all
    · intro hp hany
      simp only [normalizeMessage] at hp hany ⊢
      simp only [inferStream, hf, hair, hstove, Bool.false_and, if_false] at hp hany ⊢
      rcases hany with h | h | h | h <;> simp_all
    · intro h1 h2 h3 h4 h5
      simp only [normalizeMessage] at h1 h2 h3 h4 h5 ⊢
      simp only [inferStream, hf, hair, hstove, Bool.false_and, if_false] at h1 h2 h3 h4 h5 ⊢
      simp_all

/-- Claim C5, counterexample to the claim as stated: the claim says a
topic containing the substring 'airnode' gives AIR, but the source tests
for the slash-delimited segment `/airnode/`.  The topic "airnode/data"
contains 'airnode', yet a payload with no stream field and no
measurements normalizes to an unresolved stream, not AIR. -/
theorem c5_counterexample :
    strContains (jsLower "airnode/data") "airnode" = true ∧
    (normalizeMessage envW "airnode/data" {}).stream = none := by
  exact ⟨by decide, by decide⟩

theorem pickNumber_cons_not_num {v : JSVal} (rest : List JSVal)
    (hv : isFiniteNumber v = false) : pickNumber (v :: rest) = pickNumber rest := by
  cases v <;> simp_all [pickNumber, isFiniteNumber]

/-- `pickNumber` returns `some q` exactly when the candidate list splits
into a (possibly empty) prefix of non-finite-number values followed by the
finite number `q`: the first alias that holds a finite number is taken. -/
theorem pickNumber_eq_some_iff (l : List JSVal) (q : ℚ) :
    pickNumber l = some q ↔
      ∃ l₁ l₂, l = l₁ ++ JSVal.num q :: l₂ ∧ ∀ u ∈ l₁, isFiniteNumber u = false := by
  induction l with
  | nil =>
    simp only [pickNumber]
    constructor
    · intro h; cases h
    · rintro ⟨l₁, l₂, hl, -⟩
      exact absurd hl (by simp)
  | cons v rest ih =>
    by_cases hv : isFiniteNumber v = true
    · obtain ⟨x, rfl⟩ : ∃ x, v = JSVal.num x := by
        cases v <;> simp [isFiniteNumber] at hv ⊢
      constructor
      · intro h
        have hx : x = q := Option.some.inj h
        subst hx
        exact ⟨[], rest, rfl, by simp⟩
      · rintro ⟨l₁, l₂, hl, hfin⟩
        cases l₁ with
        | nil =>
          simp only [List.nil_append] at hl
          obtain ⟨h1, -⟩ := List.cons.inj hl
          rw [JSVal.num.inj h1]
          rfl
        | cons a l₁' =>
          obtain ⟨h1, -⟩ := List.cons.inj hl
          have hbad := hfin a (by simp)
          rw [← h1] at hbad
          simp [isFiniteNumber] at hbad
    · have hv' : isFiniteNumber v = false := by simpa using hv
      rw [pickNumber_cons_not_num rest hv', ih]
      constructor
      · rintro ⟨l₁, l₂, hl, hfin⟩
        refine ⟨v :: l₁, l₂, by rw [List.cons_append, hl], ?_⟩
        intro u hu
        rcases List.mem_cons.mp hu with h | h
        · subst h; exact hv'
        · exact hfin u h
      · rintro ⟨l₁, l₂, hl, hfin⟩
        cases l₁ with
        | nil =>
          exfalso
          simp only [List.nil_append] at hl
          obtain ⟨h1, -⟩ := List.cons.inj hl
          rw [h1] at hv'
          simp [isFiniteNumber] at hv'
        | cons a l₁' =>
          obtain ⟨-, h2⟩ := List.cons.inj hl
          exact ⟨l₁', l₂, h2, fun u hu => hfin u (by simp [hu])⟩

/-- Claim C6: the normalizer's alias mapping.  Each canonical numeric
field equals `pickNumber` over its documented alias list read from the
source object (the nested payload object when present, else the flat top
level); `pickNumber` takes the first alias holding a finite number (the
characterization below); in particular a payload carrying `pm25_ugm3` as a
finite number but no `pm25` field yields `measurements.pm25` equal to that
value; and the boolean fields `fanOn`, `buzzerOn`, `windowOpen` are taken
exactly when the source value is strictly of boolean type. -/
theorem c6_alias_mapping (env : Env) (topic : String) (raw : Raw) :
    ((normalizeMessage env topic raw).payload.co2 =
       pickNumber [(raw.payloadObj.getD raw.top).co2, (raw.payloadObj.getD raw.top).co2_ppm])
  ∧ ((normalizeMessage env topic raw).payload.co =
       pickNumber [(raw.payloadObj.getD raw.top).co, (raw.payloadObj.getD raw.top).co_ppm])
  ∧ ((normalizeMessage env topic raw).payload.pm25 =
       pickNumber [(raw.payloadObj.getD raw.top).pm25, (raw.payloadObj.getD raw.top).pm25_ugm3,
         (raw.payloadObj.getD raw.top).pm2_5, (raw.payloadObj.getD raw.top).pm2_5_ugm3])
  ∧ ((normalizeMessage env topic raw).payload.pm10 =
       pickNumber [(raw.payloadObj.getD raw.top).pm10, (raw.payloadObj.getD raw.top).pm10_ugm3])
  ∧ ((normalizeMessage env topic raw).payload.temperature_c =
       pickNumber [(raw.payloadObj.getD raw.top).temperature_c,
         (raw.payloadObj.getD raw.top).temp_c, (raw.payloadObj.getD raw.top).temperature])
  ∧ ((normalizeMessage env topic raw).payload.humidity_pct =
       pickNumber [(raw.payloadObj.getD raw.top).humidity_pct,
         (raw.payloadObj.getD raw.top).humidity])
  ∧ ((normalizeMessage env topic raw).payload.stove_temp_c =
       pickNumber [(raw.payloadObj.getD raw.top).stove_temp_c,
         (raw.payloadObj.getD raw.top).stove_temp])
  ∧ (∀ q : ℚ, (raw.payloadObj.getD raw.top).pm25 = .undef →
       (raw.payloadObj.getD raw.top).pm25_ugm3 = .num q →
       (normalizeMessage env topic raw).payload.pm25 = some q)
  ∧ (∀ (l : List JSVal) (q : ℚ), pickNumber l = some q ↔
       ∃ l₁ l₂, l = l₁ ++ JSVal.num q :: l₂ ∧ ∀ u ∈ l₁, isFiniteNumber u = false)
  ∧ (∀ b, (normalizeMessage env topic raw).payload.fanOn = some b ↔
       (raw.payloadObj.getD raw.top).fanOn = .bool b)
  ∧ (∀ b, (normalizeMessage env topic raw).payload.buzzerOn = some b ↔
       (raw.payloadObj.getD raw.top).buzzerOn = .bool b)
  ∧ (∀ b, (normalizeMessage env topic raw).payload.windowOpen = some b ↔
       (raw.payloadObj.getD raw.top).windowOpen = .bool b) := by
  refine ⟨rfl, rfl, rfl, rfl, rfl, rfl, rfl, ?_, pickNumber_eq_some_iff, ?_, ?_, ?_⟩
  · intro q h1 h2
    show pickNumber [(raw.payloadObj.getD raw.top).pm25, (raw.payloadObj.getD raw.top).pm25_ugm3,
      (raw.payloadObj.getD raw.top).pm2_5, (raw.payloadObj.getD raw.top).pm2_5_ugm3] = some q
    rw [h1, h2]
    rfl
  · intro b
    show strictBool (raw.payloadObj.getD raw.top).fanOn = some b ↔ _
    cases (raw.payloadObj.getD raw.top).fanOn <;> simp [strictBool]
  · intro b
    show strictBool (raw.payloadObj.getD raw.top).buzzerOn = some b ↔ _
    cases (raw.payloadObj.getD raw.top).buzzerOn <;> simp [strictBool]
  · intro b
    show strictBool (raw.payloadObj.getD raw.top).windowOpen = some b ↔ _
    cases (raw.payloadObj.getD raw.top).windowOpen <;> simp [strictBool]

theorem not_hasHomeCodeP_nil : ¬ hasHomeCodeP [] := by
  rintro ⟨l₁, d1, d2, l₂, -, -, hl⟩
  cases l₁ <;> simp_all

theorem homeCodeAt_eq_some {l : List Char} {m : String} (h : homeCodeAt l = some m) :
    ∃ d1 d2 rest, d1.isDigit = true ∧ d2.isDigit = true ∧
      l = 'H' :: 'O' :: 'M' :: 'E' :: '_' :: d1 :: d2 :: rest ∧
      m = ⟨['H', 'O', 'M', 'E', '_', d1, d2]⟩ := by
  rcases l with _ | ⟨a, l⟩; · exact absurd h (by simp [homeCodeAt])
  rcases l with _ | ⟨b, l⟩; · exact absurd h (by simp [homeCodeAt])
  rcases l with _ | ⟨c, l⟩; · exact absurd h (by simp [homeCodeAt])
  rcases l with _ | ⟨d, l⟩; · exact absurd h (by simp [homeCodeAt])
  rcases l with _ | ⟨e, l⟩; · exact absurd h (by simp [homeCodeAt])
  rcases l with _ | ⟨d1, l⟩; · exact absurd h (by simp [homeCodeAt])
  rcases l with _ | ⟨d2, rest⟩; · exact absurd h (by simp [homeCodeAt])
  simp only [homeCodeAt] at h
  split_ifs at h with hc
  · obtain ⟨hA, hB, hC, hD, hE, h1, h2⟩ := hc
    subst hA; subst hB; subst hC; subst hD; subst hE
    exact ⟨d1, d2, rest, h1, h2, rfl, (Option.some.inj h).symm⟩

theorem findHomeCode_eq_some {l : List Char} {m : String} (h : findHomeCode l = some m) :
    ∃ l₁ d1 d2 l₂, d1.isDigit = true ∧ d2.isDigit = true ∧
      l = l₁ ++ 'H' :: 'O' :: 'M' :: 'E' :: '_' :: d1 :: d2 :: l₂ ∧
      m = ⟨['H', 'O', 'M', 'E', '_', d1, d2]⟩ := by
  induction l with
  | nil => cases h
  | cons c rest ih =>
    cases hat : homeCodeAt (c :: rest) with
    | some m' =>
      simp only [findHomeCode, hat] at h
      obtain ⟨d1, d2, rest', hd1, hd2, hl, hm⟩ := homeCodeAt_eq_some hat
      exact ⟨[], d1, d2, rest', hd1, hd2, by simpa using hl,
        by rw [← Option.some.inj h, hm]⟩
    | none =>
      simp only [findHomeCode, hat] at h
      obtain ⟨l₁, d1, d2, l₂, hd1, hd2, hl, hm⟩ := ih h
      exact ⟨c :: l₁, d1, d2, l₂, hd1, hd2, by rw [List.cons_append, hl], hm⟩

theorem findHomeCode_eq_none_iff (l : List Char) :
    findHomeCode l = none ↔ ¬ hasHomeCodeP l := by
  induction l with
  | nil =>
    simp only [findHomeCode, true_iff]
    rintro ⟨l₁, d1, d2, l₂, -, -, hl⟩
    exact absurd hl (by simp)
  | cons c rest ih =>
    constructor
    · intro h hP
      cases hat : homeCodeAt (c :: rest) with
      | some m => simp [findHomeCode, hat] at h
      | none =>
        simp only [findHomeCode, hat] at h
        obtain ⟨l₁, d1, d2, l₂, hd1, hd2, hl⟩ := hP
        cases l₁ with
        | nil =>
          simp only [List.nil_append] at hl
          rw [hl] at hat
          simp [homeCodeAt, hd1, hd2] at hat
        | cons a l₁' =>
          obtain ⟨-, h2⟩ := List.cons.inj hl
          exact (ih.mp h) ⟨l₁', d1, d2, l₂, hd1, hd2, h2⟩
    · intro hP
      cases hat : homeCodeAt (c :: rest) with
      | some m =>
        exfalso
        obtain ⟨d1, d2, rest', hd1, hd2, hl, -⟩ := homeCodeAt_eq_some hat
        exact hP ⟨[], d1, d2, rest', hd1, hd2, by simpa using hl⟩
      | none =>
        simp only [findHomeCode, hat]
        refine ih.mpr ?_
        rintro ⟨l₁, d1, d2, l₂, hd1, hd2, hl⟩
        exact hP ⟨c :: l₁, d1, d2, l₂, hd1, hd2, by rw [List.cons_append, hl]⟩

/-- Claim C8: when a raw message carries none of the homeId aliases
(`homeId`, `home`, `h`), the normalized homeId is exactly what
`extractHomeFromDevice` yields on the raw `deviceId` field; a payload with
deviceId "STOVE_HOME_07" normalizes to homeId "HOME_07"; extraction
returns `undefined` exactly when no `HOME_` + two-digit pattern occurs in
the string, and any extracted value is such a pattern embedded in the
deviceId. -/
theorem c8_homeid_extraction (env : Env) (topic : String) (raw : Raw)
    (hAl : raw.homeId = .undef) (hAl2 : raw.home = .undef) (hAl3 : raw.h = .undef) :
    ((normalizeMessage env topic raw).homeId = extractHomeFromDevice raw.deviceId)
  ∧ (raw.deviceId = .str "STOVE_HOME_07" →
       (normalizeMessage env topic raw).homeId = .str "HOME_07")
  ∧ (∀ s : String, extractHomeFromDevice (.str s) = .undef ↔ ¬ hasHomeCodeP s.data)
  ∧ (∀ s m : String, extractHomeFromDevice (.str s) = .str m →
       ∃ l₁ d1 d2 l₂, d1.isDigit = true ∧ d2.isDigit = true ∧
         s.data = l₁ ++ 'H' :: 'O' :: 'M' :: 'E' :: '_' :: d1 :: d2 :: l₂ ∧
         m = ⟨['H', 'O', 'M', 'E', '_', d1, d2]⟩) := by
  have h1 : (normalizeMessage env topic raw).homeId = extractHomeFromDevice raw.deviceId := by
    simp [normalizeMessage, jsOr, hAl, hAl2, hAl3, truthy]
  refine ⟨h1, ?_, ?_, ?_⟩
  · intro hd
    rw [h1, hd]
    decide
  · intro s
    by_cases hne : s = ""
    · subst hne
      constructor
      · intro _
        show ¬ hasHomeCodeP []
        exact not_hasHomeCodeP_nil
      · intro _
        decide
    · have htr : truthy (JSVal.str s) = true := by simp [truthy, hne]
      simp only [extractHomeFromDevice, htr, if_true]
      cases hf : findHomeCode (jsToString (JSVal.str s)).data with
      | some m =>
        constructor
        · intro h0; cases h0
        · intro hP
          exfalso
          obtain ⟨l₁, d1, d2, l₂, hd1, hd2, hl, -⟩ := findHomeCode_eq_some hf
          exact hP ⟨l₁, d1, d2, l₂, hd1, hd2, hl⟩
      | none =>
        constructor
        · intro _
          exact (findHomeCode_eq_none_iff _).mp hf
        · intro _
          rfl
  · intro s m h0
    by_cases hne : s = ""
    · subst hne
      rw [show extractHomeFromDevice (JSVal.str "") = .undef from rfl] at h0
      cases h0
    · have htr : truthy (JSVal.str s) = true := by simp [truthy, hne]
      simp only [extractHomeFromDevice, htr, if_true] at h0
      cases hf : findHomeCode (jsToString (JSVal.str s)).data with
      | some m' =>
        rw [hf] at h0
        obtain ⟨l₁, d1, d2, l₂, hd1, hd2, hl, hm⟩ := findHomeCode_eq_some hf
        refine ⟨l₁, d1, d2, l₂, hd1, hd2, hl, ?_⟩
        rw [← hm]
        exact (JSVal.str.inj h0).symm
      | none =>
        rw [hf] at h0
        cases h0

/-- Claim C8, witness: the theorem applied to a raw message with deviceId
"STOVE_HOME_07" and no homeId aliases. -/
theorem c8_witness :
    ((normalizeMessage envW "t" { deviceId := .str "STOVE_HOME_07" }).homeId =
       extractHomeFromDevice ({ deviceId := .str "STOVE_HOME_07" } : Raw).deviceId)
  ∧ (({ deviceId := .str "STOVE_HOME_07" } : Raw).deviceId = .str "STOVE_HOME_07" →
       (normalizeMessage envW "t" { deviceId := .str "STOVE_HOME_07" }).homeId =
         .str "HOME_07")
  ∧ (∀ s : String, extractHomeFromDevice (.str s) = .undef ↔ ¬ hasHomeCodeP s.data)
  ∧ (∀ s m : String, extractHomeFromDevice (.str s) = .str m →
       ∃ l₁ d1 d2 l₂, d1.isDigit = true ∧ d2.isDigit = true ∧
         s.data = l₁ ++ 'H' :: 'O' :: 'M' :: 'E' :: '_' :: d1 :: d2 :: l₂ ∧
         m = ⟨['H', 'O', 'M', 'E', '_', d1, d2]⟩) :=
  c8_homeid_extraction envW "t" { deviceId := .str "STOVE_HOME_07" } rfl rfl rfl

/-- Claim C3 (amended): the Command Dispatcher fails with NotFound and
publishes nothing when the Device Registry lookup finds no device; when
the lookup succeeds *and the bus publisher is available*, exactly one
message is published, on the topic `shega/<lower-cased type>/control`,
with a payload embedding the device's deviceId, its homeId, the command
object verbatim, and the issue timestamp; when the lookup succeeds but the
publisher is unavailable the call fails and nothing is published. -/
theorem c3_dispatch (α : Type) (find : String → Option Device)
    (mqttOk : Bool) (now devId : String) (cmd : α) :
    (find devId = none →
       sendDeviceControl find mqttOk now devId cmd = (.error .notFound, []))
  ∧ (∀ d, find devId = some d → mqttOk = true →
       sendDeviceControl find mqttOk now devId cmd =
         (.ok ⟨"shega/" ++ jsLower d.type ++ "/control", ⟨d.deviceId, d.homeId, cmd, now⟩⟩,
          [("shega/" ++ jsLower d.type ++ "/control", ⟨d.deviceId, d.homeId, cmd, now⟩)]))
  ∧ (∀ d, find devId = some d → mqttOk = false →
       sendDeviceControl find mqttOk now devId cmd = (.error .publisherUnavailable, [])) := by
  refine ⟨?_, ?_, ?_⟩
  · intro h
    simp [sendDeviceControl, h]
  · intro d h hm
    simp [sendDeviceControl, h, hm]
  · intro d h hm
    simp [sendDeviceControl, h, hm]

/-- Claim C3, counterexample to the claim as stated: the claim says a
successful lookup always results in exactly one published message, but
when the MQTT publisher is unavailable the call throws (`MQTT publisher
not available`, status 500) after a successful lookup and publishes
nothing. -/
theorem c3_counterexample :
    (findW "D1").isSome = true ∧
    (sendDeviceControl findW false "2024-01-01T00:00:00.000Z" "D1" true).2 = [] ∧
    (sendDeviceControl findW false "2024-01-01T00:00:00.000Z" "D1" true).1 =
      .error .publisherUnavailable := by
  exact ⟨rfl, rfl, rfl⟩

end Shega
